import Mathlib

/-!
Verification development for the class-resolution and entity-identity subsystem
of the `ies-tool` library (`ies_tool/ies_tool.py`, `ies_tool/ies_ontology.py`).

The Python code is shallowly embedded: the mutable `IESTool` session object
becomes an explicit `ToolState` record threaded through the operations, Python
dicts become insertion-ordered association lists, Python objects live on an
explicit heap (`List ObjData`) so that reference identity is the heap index,
and operations that can raise return `Except String`.  Side effects (triple
emission, cache registration, URI generation, logging) are additionally
recorded in an event trace so that ordering properties can be stated.
-/

namespace IES

/-! ## Constants (from `ies_tool/ies_constants.py` / `ies_tool.py`) -/

def RDFS : String := "http://www.w3.org/2000/01/rdf-schema#"

def RDFS_RESOURCE : String := "http://www.w3.org/2000/01/rdf-schema#Resource"

def RDF_TYPE : String := "http://www.w3.org/1999/02/22-rdf-syntax-ns#type"

def IES_BASE : String := "http://ies.data.gov.uk/ontology/ies4#"

def DEFAULT_DATA_NAMESPACE : String := "http://example.com/rdf/testdata#"

/-! ## Python dict model

Python dicts preserve insertion order; assignment to an existing key keeps its
position, assignment to a fresh key appends.  We model a dict as an
association list with (invariantly) unique keys. -/

/-- Lookup in an insertion-ordered association list (Python `d[k]` /
`k in d`). -/
def assocLookup {α : Type} [DecidableEq α] {β : Type} : List (α × β) → α → Option β
  | [], _ => none
  | (k, v) :: rest, key => if k = key then some v else assocLookup rest key

/-- Assignment `d[k] = v` on an insertion-ordered association list: overwrite
in place if the key exists, append otherwise. -/
def dictSet {α : Type} [DecidableEq α] {β : Type} : List (α × β) → α → β → List (α × β)
  | [], k, v => [(k, v)]
  | (k', v') :: rest, k, v =>
    if k' = k then (k, v) :: rest else (k', v') :: dictSet rest k v

/-! ## Decimal formatting (Python `f-string` `{n:06d}`) -/

/-- Decimal digit character for a single digit value. -/
def digitChar : Nat → Char
  | 0 => '0'
  | 1 => '1'
  | 2 => '2'
  | 3 => '3'
  | 4 => '4'
  | 5 => '5'
  | 6 => '6'
  | 7 => '7'
  | 8 => '8'
  | _ => '9'

/-- Big-endian decimal digits of a natural number. -/
def natToDigits (n : Nat) : List Char :=
  if h : n < 10 then [digitChar n]
  else natToDigits (n / 10) ++ [digitChar (n % 10)]
termination_by n
decreasing_by
  exact Nat.div_lt_self (by omega) (by omega)

/-- Python `f"{n:06d}"`: the decimal numeral left-padded with zeros to at
least six characters. -/
def pad6 (n : Nat) : String :=
  ⟨List.replicate (6 - (natToDigits n).length) '0' ++ natToDigits n⟩

/-! ## Data model for the session (`IESTool`) -/

/-- Data of one Python entity object (an `RdfsResource` or subclass instance).
Objects live on an explicit heap; a heap index plays the role of the object
reference, so reference equality is index equality. -/
structure ObjData where
  clsName : String
  uri : String
  classes : List String
deriving DecidableEq, Repr

/-- One RDF triple as stored by the in-memory graph collaborator. -/
structure Triple where
  s : String
  p : String
  o : String
  isLiteral : Bool
  literalType : String
deriving DecidableEq, Repr

/-- Observable side effects, in the order they happen. -/
inductive Event where
  | genUri (uri : String)
  | addTriple (s p o : String)
  | register (uri : String) (ref : Nat)
  | logWarning (msg : String)
  | logError (msg : String)
deriving DecidableEq, Repr

/-- Entry of the type-hierarchy map: `{'python_class': ..., 'ies_subclasses': ...}`.
The Python class is identified by its name. -/
structure BaseClassEntry where
  python_class : String
  ies_subclasses : List String
deriving DecidableEq, Repr

/-- One level of `IESTool.base_classes`: a URI-keyed dict of entries. -/
abbrev LevelMap := List (String × BaseClassEntry)

/-- The `IESTool.base_classes` structure: `level -> {uri -> entry}`. -/
abbrev Hierarchy := List (Nat × LevelMap)

/-- The mutable state of one `IESTool` session. -/
structure ToolState where
  default_data_namespace : String
  session_uuid_str : String
  session_instance_count : Nat
  instances : List (String × Nat)
  heap : List ObjData
  graph : List Triple
  base_classes : Hierarchy
  object_properties : List String
  datatype_properties : List String
  url_validator : String → Bool
  events : List Event

/-- Append a warning to the log (`logger.warning`). -/
def logWarning (st : ToolState) (msg : String) : ToolState :=
  { st with events := st.events ++ [Event.logWarning msg] }

/-- Append an error to the log (`logger.error`). -/
def logError (st : ToolState) (msg : String) : ToolState :=
  { st with events := st.events ++ [Event.logError msg] }

/-- Embedding of `IESTool.generate_data_uri(context)`:
builds `f'{self.default_data_namespace}{self.session_uuid_str}{context}_{self.session_instance_count:06d}'`
and then increments the session instance counter. -/
def generate_data_uri (st : ToolState) (context : Option String) : String × ToolState :=
  let ctx := context.getD ""
  let uri := st.default_data_namespace ++ st.session_uuid_str ++ ctx ++ "_"
      ++ pad6 st.session_instance_count
  (uri, { st with
            session_instance_count := st.session_instance_count + 1,
            events := st.events ++ [Event.genUri uri] })

/-- Embedding of `IESTool.clear_graph()` (rdflib mode): resets the graph and
the identity cache, installs a fresh session uuid (`uuid.uuid4().hex`, here
passed in explicitly as `freshUuid` to make the nondeterminism a parameter),
and resets the instance counter to zero. -/
def clear_graph (st : ToolState) (freshUuid : String) : ToolState :=
  { st with
      graph := [],
      session_uuid_str := freshUuid,
      session_instance_count := 0,
      instances := [] }

/-- Run a sequence of `generate_data_uri` calls with the given context
arguments, collecting the returned URIs. -/
def run_generate : ToolState → List (Option String) → List String × ToolState
  | st, [] => ([], st)
  | st, c :: cs =>
    let p := generate_data_uri st c
    let q := run_generate p.2 cs
    (p.1 :: q.1, q.2)

/-! ## Ontology index: subclass closure

`Ontology.make_results_set_from_query` is called (in `_all_python_subclasses`)
with the query `SELECT ?p WHERE {?p rdfs:subClassOf* <uri>}`.  The ontology
graph is modelled as its list of `rdfs:subClassOf` edges `(sub, super)`, and
the rdflib evaluation of the reflexive-transitive property path is embedded as
a bounded fixpoint: one step adds the subjects of all edges whose object is
already reachable, and `edges.length + 1` rounds saturate (each productive
round adds at least one of the at most `edges.length` edge subjects). -/

/-- One backward step of the `rdfs:subClassOf*` path evaluation. -/
def reachStep (edges : List (String × String)) (s : List String) : List String :=
  s ++ (edges.filter (fun e => decide (e.2 ∈ s))).map Prod.fst

/-- Iterate `reachStep` a fixed number of rounds. -/
def iterStep (edges : List (String × String)) : Nat → List String → List String
  | 0, s => s
  | n + 1, s => iterStep edges n (reachStep edges s)

/-- Embedding of the `subClassOf*` SELECT query result set: all classes that
reach `uri` through zero or more `rdfs:subClassOf` edges (as a list; only
membership is ever consumed). -/
def subClassOf_star (edges : List (String × String)) (uri : String) : List String :=
  iterStep edges (edges.length + 1) [uri]

/-! ## Python string helpers used by `_all_python_subclasses` -/

/-- Python substring test `needle in haystack` on the character lists. -/
def containsSub (needle : List Char) : List Char → Bool
  | [] => needle.isPrefixOf []
  | c :: rest => needle.isPrefixOf (c :: rest) || containsSub needle rest

/-- Helper for `py_replace`, recursing on explicit fuel. -/
def pyReplaceAux (pat rep : List Char) : Nat → List Char → List Char
  | 0, s => s
  | fuel + 1, s =>
    if pat.isPrefixOf s then rep ++ pyReplaceAux pat rep fuel (s.drop pat.length)
    else
      match s with
      | [] => []
      | c :: rest => c :: pyReplaceAux pat rep fuel rest

/-- Python `s.replace(pat, rep)` (replace every occurrence, left to right) for
a non-empty pattern. -/
def py_replace (s pat rep : String) : String :=
  ⟨pyReplaceAux pat.data rep.data (s.data.length + 1) s.data⟩

/-! ## Type hierarchy map (`IESTool._all_python_subclasses`) -/

/-- The implementation-type graph: a Python class with its name and the list
returned by `cls.__subclasses__()` (in definition order; a multiply-derived
class appears under each of its direct superclasses). -/
inductive PyClassTree where
  | node (name : String) (subclasses : List PyClassTree)

/-- Name of the modelled Python class. -/
def PyClassTree.name : PyClassTree → String
  | .node n _ => n

/-- Canonical ontology URI of a Python class, per `_all_python_subclasses`:
`cls.__name__.replace("Rdfs", RDFS)` when the name contains `"Rdfs"`, else
`IES_BASE + cls.__name__`. -/
def canonical_uri (name : String) : String :=
  if containsSub "Rdfs".data name.data then py_replace name "Rdfs" RDFS
  else IES_BASE ++ name

/-- Assignment `hierarchy[level][uri] = entry` (the level key is already
present). -/
def hierSet (h : Hierarchy) (level : Nat) (uri : String) (e : BaseClassEntry) : Hierarchy :=
  h.map (fun lv => if lv.1 = level then (lv.1, dictSet lv.2 uri e) else lv)

mutual

/-- Embedding of `IESTool._all_python_subclasses(hierarchy, cls, level)`:
ensure the level key exists, compute the class URI and its `subClassOf*`
closure over the ontology graph, record the entry, then recurse into the
direct subclasses at `level + 1`. -/
def all_python_subclasses (ont : List (String × String)) (hierarchy : Hierarchy)
    (cls : PyClassTree) (level : Nat) : Hierarchy :=
  match cls with
  | .node name subs =>
    let hierarchy := if (assocLookup hierarchy level).isSome then hierarchy
                     else hierarchy ++ [(level, [])]
    let uri := canonical_uri name
    let ies_subs := subClassOf_star ont uri
    let hierarchy := hierSet hierarchy level uri ⟨name, ies_subs⟩
    all_python_subclasses_list ont hierarchy subs (level + 1)

/-- Fold of `all_python_subclasses` over `cls.__subclasses__()`. -/
def all_python_subclasses_list (ont : List (String × String)) (hierarchy : Hierarchy) :
    List PyClassTree → Nat → Hierarchy
  | [], _ => hierarchy
  | c :: rest, level =>
    all_python_subclasses_list ont (all_python_subclasses ont hierarchy c level) rest level

end

/-! ## Base class resolution (`IESTool._determine_base_class`) -/

/-- A value a Python expression in `_determine_base_class` can produce: the
success path returns a Python class, while the fallback line
`self.base_classes[0]["python_class"]` would (if the key lookup succeeded)
produce a raw entry dict. -/
inductive PyVal where
  | clsVal (name : String)
  | entryVal (e : BaseClassEntry)
deriving DecidableEq, Repr

/-- Inner loops of `_determine_base_class`: for each entry of the level, for
each requested class, return the entry's python class on the first requested
URI found in the entry's covered subclasses. -/
def scanLevel : LevelMap → List String → Option String
  | [], _ => none
  | (_, e) :: rest, classes =>
    if classes.any (fun c => decide (c ∈ e.ies_subclasses)) then some e.python_class
    else scanLevel rest classes

/-- Outer loop of `_determine_base_class` over `reversed(base_classes.keys())`;
each key is looked up in the dict (`self.base_classes[level_number]`). -/
def scanLevels (bc : Hierarchy) : List Nat → List String → Except String (Option (PyVal × Nat))
  | [], _ => Except.ok none
  | ln :: rest, classes =>
    match assocLookup bc ln with
    | none => Except.error "KeyError"
    | some lvl =>
      match scanLevel lvl classes with
      | some pc => Except.ok (some (PyVal.clsVal pc, ln))
      | none => scanLevels bc rest classes

/-- Embedding of `IESTool._determine_base_class(classes)`.  The fallback
`return self.base_classes[0]["python_class"], 0` indexes the level-0 dict
(which is keyed by class URIs) with the string `"python_class"`; a missing
key raises `KeyError`. -/
def determine_base_class (bc : Hierarchy) (classes : List String) :
    Except String (PyVal × Nat) :=
  match scanLevels bc ((bc.map Prod.fst).reverse) classes with
  | Except.error e => Except.error e
  | Except.ok (some r) => Except.ok r
  | Except.ok none =>
    match assocLookup bc 0 with
    | none => Except.error "KeyError: 0"
    | some lvl0 =>
      match assocLookup lvl0 "python_class" with
      | none => Except.error "KeyError: python_class"
      | some e => Except.ok (PyVal.entryVal e, 0)

/-- Modelled from the spec: the repository's `IESTool.add_classes` operation
is not present under `src/` (only its caller in `test/extensions.py` is).
Spec section 4.1: an explicit `addClasses(mapping: URI -> list<superclassURI>)`
operation "merges new class/superclass facts in"; here it extends the
ontology's `rdfs:subClassOf` edge list with one edge per declared superclass.
Callers are expected to rebuild the type hierarchy map afterwards. -/
def add_classes (ont : List (String × String)) (mapping : List (String × List String)) :
    List (String × String) :=
  ont ++ mapping.foldr (fun cm acc => (cm.2.map (fun sup => (cm.1, sup))) ++ acc) []

/-! ## Triple emission (`IESTool.add_triple`, rdflib mode) -/

/-- Embedding of `IESTool.in_graph` in rdflib mode.  Both its branches check
membership of `(URIRef(subject), URIRef(predicate), Literal(obj))` — a plain
literal object — against the graph, so the flag recorded here is `true` with
an empty datatype regardless of `isLit`. -/
def in_graph (st : ToolState) (s p o : String) : Bool :=
  decide (Triple.mk s p o true "" ∈ st.graph)

/-- Embedding of `IESTool.add_triple` in rdflib mode for a non-literal
object: if `in_graph` does not already hold the triple, warn when the
predicate is not a known ontology object property, then add the triple to the
graph.  The call itself is recorded as an event up front. -/
def add_triple (st : ToolState) (s p o : String) : ToolState :=
  let st := { st with events := st.events ++ [Event.addTriple s p o] }
  if in_graph st s p o then st
  else
    let st := if p ∈ st.object_properties then st
              else logWarning st ("non-IES object property used: " ++ p)
    { st with graph := st.graph ++ [Triple.mk s p o false "string"] }

/-! ## Construction protocol (`Unique.__call__` and `RdfsResource.__init__`) -/

/-- Class-list defaulting of `RdfsResource.__init__`: `None` (or an absent
keyword) and `[]` both become `[RDFS_RESOURCE]`. -/
def effective_classes (classesArg : Option (List String)) : List String :=
  match classesArg with
  | none => [RDFS_RESOURCE]
  | some [] => [RDFS_RESOURCE]
  | some cs => cs

/-- Whether an event is a cache registration. -/
def Event.isRegister : Event → Bool
  | Event.register _ _ => true
  | _ => false

/-- Whether an event is an `add_triple` call. -/
def Event.isAddTriple : Event → Bool
  | Event.addTriple _ _ _ => true
  | _ => false

/-- Registration `tool.instances[uri] = obj`. -/
def registerInstance (st : ToolState) (uri : String) (ref : Nat) : ToolState :=
  { st with
      instances := dictSet st.instances uri ref,
      events := st.events ++ [Event.register uri ref] }

/-- Overwrite the heap cell of an object (field assignments in `__init__`). -/
def heapSet (st : ToolState) (ref : Nat) (d : ObjData) : ToolState :=
  { st with heap := st.heap.set ref d }

/-- Embedding of `RdfsResource.__init__(tool, uri, classes)` running on the
freshly allocated object `ref`:
default the class list (`None` or `[]` becomes `[RDFS_RESOURCE]`), generate a
URI when the passed one is `None` or empty, emit one `rdf:type` triple per
class, store the fields, and finally register the object in
`tool.instances` keyed by `self._uri`. -/
def rdfs_resource_init (st : ToolState) (ref : Nat) (clsName : String)
    (uriArg : Option String) (classesArg : Option (List String)) : ToolState :=
  let classes := effective_classes classesArg
  let p := match uriArg with
    | none => generate_data_uri st none
    | some u => if u = "" then generate_data_uri st none else (u, st)
  let uri := p.1
  let st := p.2
  let st := classes.foldl (fun s c => add_triple s uri RDF_TYPE c) st
  let st := heapSet st ref ⟨clsName, uri, classes⟩
  registerInstance st uri ref

/-- Embedding of the `Unique` metaclass `__call__` for an entity class named
`clsName`: resolve the cache key URI (generating one when the `uri` kwarg is
absent/None — modelled as `none` — or empty), log an error on an invalid URI,
and then either return the cached object unchanged or allocate a new object,
run `__init__` on the original kwargs, register the result under the key URI,
and return it.  Returns the heap reference of the object. -/
def unique_call (st : ToolState) (clsName : String) (uriArg : Option String)
    (classesArg : Option (List String)) : Nat × ToolState :=
  let p := match uriArg with
    | none => generate_data_uri st none
    | some u => if u = "" then generate_data_uri st none else (u, st)
  let uri := p.1
  let st := p.2
  let st := if st.url_validator uri then st else logError st ("Invalid URI: " ++ uri)
  match assocLookup st.instances uri with
  | none =>
    let ref := st.heap.length
    let st := { st with heap := st.heap ++ [⟨clsName, "", []⟩] }
    let st := rdfs_resource_init st ref clsName uriArg classesArg
    let st := registerInstance st uri ref
    (ref, st)
  | some cached => (cached, st)

/-! ## Reference resolution (`IESTool._get_instance`,
`RdfsResource._validate_referenced_object`) -/

/-- Embedding of `IESTool._get_instance(uri)`. -/
def get_instance (st : ToolState) (uri : String) : Option Nat :=
  assocLookup st.instances uri

/-- A value passed where an object or URI string is accepted. -/
inductive Ref where
  | str (s : String)
  | obj (r : Nat)
  | other (descr : String)
deriving DecidableEq, Repr

/-- Embedding of `RdfsResource._validate_referenced_object(reference,
base_type, context)`.  For an uncached string reference the warning f-string
interpolates `base_type.__name__` BEFORE the `if base_type is None` default
runs, so the `none` case raises `AttributeError`; with a base type supplied it
logs one warning naming the context and constructs a placeholder bound to the
URI with an explicit empty class list. -/
def validate_referenced_object (st : ToolState) (reference : Ref)
    (base_type : Option String) (context : Option String) :
    Except String (Nat × ToolState) :=
  let ctx := context.getD ""
  match reference with
  | Ref.str s =>
    match get_instance st s with
    | some inst => Except.ok (inst, st)
    | none =>
      match base_type with
      | none =>
        Except.error "AttributeError: NoneType object has no attribute __name__"
      | some btName =>
        let st := logWarning st ("String passed instead of object in " ++ ctx
          ++ " - assumed URI is defined elsewhere: " ++ s
          ++ " - base class " ++ btName ++ " has been inferred")
        Except.ok (unique_call st btName (some s) (some []))
  | Ref.obj r => Except.ok (r, st)
  | Ref.other d => Except.error ("Unknown type " ++ d ++ " in " ++ ctx)

/-! ## Entity instantiation (`IESTool.instantiate`) -/

/-- Python string comparison `a < b` (code-point lexicographic). -/
def py_str_lt (a b : String) : Bool :=
  decide (a.data < b.data)

/-- Stable insertion of a string into an ascending list, placing `x` after
every element not greater than it (matching Python's stable sort). -/
def pySortInsert (x : String) : List String → List String
  | [] => [x]
  | y :: ys => if py_str_lt x y then x :: y :: ys else y :: pySortInsert x ys

/-- Embedding of Python `list.sort()` on strings: a stable ascending sort. -/
def py_sort : List String → List String
  | [] => []
  | x :: xs => pySortInsert x (py_sort xs)

/-- URI defaulting step of `instantiate`: keep a supplied URI, otherwise
generate one with the instance URI context. -/
def resolve_instance_uri (st : ToolState) (uriArg : Option String) (ictx : String) :
    String × ToolState :=
  match uriArg with
  | none => generate_data_uri st (some ictx)
  | some u => (u, st)

/-- Embedding of `IESTool.instantiate(classes, uri, instance_uri_context,
base_class)`.  The first component is the outcome (object reference and final
state, or the raised error); the second component is the value of the
caller-passed `classes` list object after the call — `classes.sort()` runs in
place on the caller's list, but only after `_determine_base_class` and only
when control reaches it (an empty or absent list is rebound to a fresh
`[RDFS_RESOURCE]`, leaving the caller's list untouched). -/
def instantiate (st : ToolState) (classesArg : Option (List String))
    (uriArg : Option String) (ictxArg : Option String) (baseClassArg : Option String) :
    Except String (Nat × ToolState) × Option (List String) :=
  let ictx := ictxArg.getD ""
  let classes := match classesArg with
    | none => [RDFS_RESOURCE]
    | some [] => [RDFS_RESOURCE]
    | some cs => cs
  let resolved : Except String (PyVal × Nat) := match baseClassArg with
    | some bc => Except.ok (PyVal.clsVal bc, 0)
    | none => determine_base_class st.base_classes classes
  match resolved with
  | Except.error e => (Except.error e, classesArg)
  | Except.ok (PyVal.entryVal _, _) =>
    -- the fallback of `_determine_base_class` cannot produce a callable
    (Except.error "TypeError: dict object is not callable", classesArg)
  | Except.ok (PyVal.clsVal bc, _) =>
    let p := resolve_instance_uri st uriArg ictx
    let uri := p.1
    let st := p.2
    let sortedClasses := py_sort classes
    let callerAfter : Option (List String) := match classesArg with
      | none => none
      | some [] => some []
      | some cs => some (py_sort cs)
    (Except.ok (unique_call st bc (some uri) (some sortedClasses)), callerAfter)

/-! ## Proof gadgets

`parseCounter` recovers the instance counter embedded at the end of every
generated URI (the maximal digit suffix, read as a decimal number).  It is a
verification device, not part of the embedding: a left inverse used to prove
generated URIs pairwise distinct. -/

/-- Value of a decimal digit character. -/
def charVal (c : Char) : Nat := c.toNat - 48

/-- Value of a big-endian digit string. -/
def valDigits (l : List Char) : Nat := l.foldl (fun a c => 10 * a + charVal c) 0

/-- Read the trailing digit run of a string as a decimal number. -/
def parseCounter (s : String) : Nat :=
  valDigits ((s.data.reverse.takeWhile Char.isDigit).reverse)

/-! ## Concrete model fixtures for the closed theorems -/

/-- A two-type implementation lattice: the root plus one subclass, mirroring
`RdfsResource` and its subclass `ExchangedItem`. -/
def tinyTree : PyClassTree :=
  PyClassTree.node "RdfsResource" [PyClassTree.node "ExchangedItem" []]

/-- Ontology edges for `tinyTree`: `ies:ExchangedItem rdfs:subClassOf
rdfs:Resource`. -/
def tinyOntology : List (String × String) :=
  [(IES_BASE ++ "ExchangedItem", RDFS_RESOURCE)]

/-- The hierarchy the tool would build over `tinyTree`. -/
def tinyHierarchy : Hierarchy :=
  all_python_subclasses tinyOntology [] tinyTree 0

/-- A concrete fresh session state over `tinyHierarchy` (uuid hex string as
produced by `uuid.uuid4().hex`; the URL validator accepts everything, as
`validators.url` does on the well-formed URIs used here). -/
def initToolState : ToolState where
  default_data_namespace := DEFAULT_DATA_NAMESPACE
  session_uuid_str := "a0b1c2d3e4f5061728394a5b6c7d8e9f"
  session_instance_count := 0
  instances := []
  heap := []
  graph := []
  base_classes := tinyHierarchy
  object_properties := [RDF_TYPE, RDFS ++ "subClassOf", RDFS ++ "subPropertyOf"]
  datatype_properties := [RDFS ++ "label", RDFS ++ "comment"]
  url_validator := fun _ => true
  events := []

/-- The implementation lattice slice around `Device`, which is multiply
derived (`class Device(Asset, DeviceState)`) and therefore appears in the
`__subclasses__()` lists of both parents. -/
def deviceClassTree : PyClassTree :=
  PyClassTree.node "RdfsResource" [
    PyClassTree.node "RdfsClass" [],
    PyClassTree.node "ExchangedItem" [
      PyClassTree.node "Element" [
        PyClassTree.node "Entity" [
          PyClassTree.node "Asset" [PyClassTree.node "Device" []]],
        PyClassTree.node "State" [
          PyClassTree.node "DeviceState" [PyClassTree.node "Device" []]]]]]

/-- Ontology edges for the `Device` slice. -/
def deviceOntology : List (String × String) :=
  [(IES_BASE ++ "Device", IES_BASE ++ "Asset"),
   (IES_BASE ++ "Asset", IES_BASE ++ "Entity")]

/-- URI of the newly registered class in the `extensions.py` scenario. -/
def WIDGET : String := IES_BASE ++ "Widget"

/-- A parametric implementation-type chain root -> A -> B, rooted at the real
root class `RdfsResource`. -/
def chainTree (nA nB : String) : PyClassTree :=
  PyClassTree.node "RdfsResource" [PyClassTree.node nA [PyClassTree.node nB []]]

/-- An ontology in which the canonical classes of `chainTree nA nB` form a
subclass chain `B subClassOf A subClassOf rdfs:Resource`. -/
def chainOntology (nA nB : String) : List (String × String) :=
  [(IES_BASE ++ nB, IES_BASE ++ nA), (IES_BASE ++ nA, RDFS_RESOURCE)]

/-! # Theorems -/

/-! ## Decimal formatting lemmas -/

theorem charVal_digitChar (d : Nat) (h : d < 10) : charVal (digitChar d) = d := by
  interval_cases d <;> rfl

theorem digitChar_isDigit (d : Nat) : (digitChar d).isDigit = true := by
  unfold digitChar
  split <;> decide

theorem valDigits_singleton (c : Char) : valDigits [c] = charVal c := by
  simp [valDigits]

theorem valDigits_append_singleton (l : List Char) (c : Char) :
    valDigits (l ++ [c]) = 10 * valDigits l + charVal c := by
  simp [valDigits, List.foldl_append]

theorem natToDigits_val (n : Nat) : valDigits (natToDigits n) = n := by
  induction n using Nat.strong_induction_on with
  | _ n ih =>
    rw [natToDigits]
    split
    · next h => rw [valDigits_singleton, charVal_digitChar n h]
    · next h =>
      rw [valDigits_append_singleton, ih (n / 10) (Nat.div_lt_self (by omega) (by omega)),
        charVal_digitChar (n % 10) (Nat.mod_lt n (by omega))]
      omega

theorem natToDigits_isDigit (n : Nat) : ∀ c ∈ natToDigits n, c.isDigit = true := by
  induction n using Nat.strong_induction_on with
  | _ n ih =>
    rw [natToDigits]
    split
    · intro c hc
      rw [List.mem_singleton] at hc
      subst hc
      exact digitChar_isDigit n
    · next h =>
      intro c hc
      rw [List.mem_append] at hc
      rcases hc with hc | hc
      · exact ih (n / 10) (Nat.div_lt_self (by omega) (by omega)) c hc
      · rw [List.mem_singleton] at hc
        subst hc
        exact digitChar_isDigit (n % 10)

theorem valDigits_replicate_zero (k : Nat) (l : List Char) :
    valDigits (List.replicate k '0' ++ l) = valDigits l := by
  induction k with
  | zero => simp
  | succ k ih =>
    rw [List.replicate_succ, List.cons_append]
    show valDigits (List.replicate k '0' ++ l) = _
    exact ih

theorem pad6_val (n : Nat) : valDigits (pad6 n).data = n := by
  show valDigits (List.replicate (6 - (natToDigits n).length) '0' ++ natToDigits n) = n
  rw [valDigits_replicate_zero, natToDigits_val]

theorem pad6_isDigit (n : Nat) : ∀ c ∈ (pad6 n).data, c.isDigit = true := by
  intro c hc
  rw [show (pad6 n).data = List.replicate (6 - (natToDigits n).length) '0' ++ natToDigits n
    from rfl, List.mem_append] at hc
  rcases hc with hc | hc
  · rw [List.eq_of_mem_replicate hc]
    decide
  · exact natToDigits_isDigit n c hc

theorem takeWhile_append_of_all {p : Char → Bool} (l l' : List Char)
    (h : ∀ x ∈ l, p x = true) :
    (l ++ l').takeWhile p = l ++ l'.takeWhile p := by
  induction l with
  | nil => simp
  | cons c cs ih => simp_all [List.takeWhile]

/-! ## Counter recovery: `parseCounter` is a left inverse of URI generation -/

theorem parseCounter_tail (prefixStr : String) (n : Nat) :
    parseCounter (prefixStr ++ "_" ++ pad6 n) = n := by
  unfold parseCounter
  have hdata : (prefixStr ++ "_" ++ pad6 n).data
      = prefixStr.data ++ ('_' :: (pad6 n).data) := by
    simp [String.data_append]
  rw [hdata, List.reverse_append, List.reverse_cons, List.append_assoc,
    List.singleton_append,
    takeWhile_append_of_all ((pad6 n).data.reverse) ('_' :: prefixStr.data.reverse)
      (by intro x hx; exact pad6_isDigit n x (List.mem_reverse.mp hx))]
  have hu : List.takeWhile Char.isDigit ('_' :: prefixStr.data.reverse) = [] := by
    simp [List.takeWhile]
  rw [hu, List.append_nil, List.reverse_reverse, pad6_val]

theorem parse_generate_data_uri (st : ToolState) (ctx : Option String) :
    parseCounter (generate_data_uri st ctx).1 = st.session_instance_count :=
  parseCounter_tail (st.default_data_namespace ++ st.session_uuid_str ++ ctx.getD "")
    st.session_instance_count

theorem generate_data_uri_count (st : ToolState) (ctx : Option String) :
    (generate_data_uri st ctx).2.session_instance_count = st.session_instance_count + 1 :=
  rfl

theorem mem_run_generate_ge (cs : List (Option String)) :
    ∀ (st : ToolState), ∀ u ∈ (run_generate st cs).1,
      st.session_instance_count ≤ parseCounter u := by
  induction cs with
  | nil =>
    intro st u hu
    simp [run_generate] at hu
  | cons c cs ih =>
    intro st u hu
    rw [show (run_generate st (c :: cs)).1
      = (generate_data_uri st c).1 :: (run_generate (generate_data_uri st c).2 cs).1
      from rfl, List.mem_cons] at hu
    rcases hu with hu | hu
    · subst hu
      rw [parse_generate_data_uri]
    · have := ih (generate_data_uri st c).2 u hu
      rw [generate_data_uri_count] at this
      omega

theorem run_generate_nodup (st : ToolState) (cs : List (Option String)) :
    (run_generate st cs).1.Nodup := by
  induction cs generalizing st with
  | nil => simp [run_generate]
  | cons c cs ih =>
    rw [show (run_generate st (c :: cs)).1
      = (generate_data_uri st c).1 :: (run_generate (generate_data_uri st c).2 cs).1
      from rfl]
    refine List.nodup_cons.mpr ⟨?_, ih _⟩
    intro hmem
    have h1 := mem_run_generate_ge cs (generate_data_uri st c).2 _ hmem
    rw [generate_data_uri_count, parse_generate_data_uri] at h1
    omega

/-- Claim C6: within one session, `generate_data_uri` is injective over time —
any sequence of consecutive calls (with any context arguments) returns
pairwise distinct strings, the embedded session counter strictly increases on
every call, and `clear_graph` resets the counter to zero while installing the
fresh session token. -/
theorem claim_C6 :
    (∀ (st : ToolState) (cs : List (Option String)), (run_generate st cs).1.Nodup)
    ∧ (∀ (st : ToolState) (c : Option String),
        (generate_data_uri st c).2.session_instance_count = st.session_instance_count + 1)
    ∧ (∀ (st : ToolState) (freshUuid : String),
        (clear_graph st freshUuid).session_instance_count = 0
        ∧ (clear_graph st freshUuid).session_uuid_str = freshUuid) :=
  ⟨run_generate_nodup, generate_data_uri_count, fun _ _ => ⟨rfl, rfl⟩⟩

/-! ## Dict lemmas -/

theorem assocLookup_dictSet_self {α : Type} [DecidableEq α] {β : Type}
    (d : List (α × β)) (k : α) (v : β) :
    assocLookup (dictSet d k v) k = some v := by
  induction d with
  | nil => simp [dictSet, assocLookup]
  | cons kv rest ih =>
    by_cases h : kv.1 = k
    · simp [dictSet, h, assocLookup]
    · simp [dictSet, h, assocLookup, ih]

theorem assocLookup_dictSet_of_ne {α : Type} [DecidableEq α] {β : Type}
    (d : List (α × β)) (k k' : α) (v : β) (h : k ≠ k') :
    assocLookup (dictSet d k v) k' = assocLookup d k' := by
  induction d with
  | nil => simp [dictSet, assocLookup, h]
  | cons kv rest ih =>
    by_cases hk : kv.1 = k
    · simp [dictSet, hk, assocLookup, h]
    · simp [dictSet, hk, assocLookup, ih]

/-! ## Effect-frame lemmas for `add_triple` and the logging helpers -/

theorem add_triple_instances (st : ToolState) (s p o : String) :
    (add_triple st s p o).instances = st.instances := by
  unfold add_triple logWarning
  dsimp only
  split
  · rfl
  · split <;> rfl

theorem add_triple_heap (st : ToolState) (s p o : String) :
    (add_triple st s p o).heap = st.heap := by
  unfold add_triple logWarning
  dsimp only
  split
  · rfl
  · split <;> rfl

theorem add_triple_count (st : ToolState) (s p o : String) :
    (add_triple st s p o).session_instance_count = st.session_instance_count := by
  unfold add_triple logWarning
  dsimp only
  split
  · rfl
  · split <;> rfl

theorem add_triple_object_properties (st : ToolState) (s p o : String) :
    (add_triple st s p o).object_properties = st.object_properties := by
  unfold add_triple logWarning
  dsimp only
  split
  · rfl
  · split <;> rfl

theorem add_triple_events (st : ToolState) (s p o : String)
    (h : p ∈ st.object_properties) :
    (add_triple st s p o).events = st.events ++ [Event.addTriple s p o] := by
  unfold add_triple
  dsimp only
  split
  · rfl
  · simp [h]

theorem foldl_add_triple_instances (cs : List String) (st : ToolState) (u : String) :
    (cs.foldl (fun s c => add_triple s u RDF_TYPE c) st).instances = st.instances := by
  induction cs generalizing st with
  | nil => rfl
  | cons c cs ih => rw [List.foldl_cons, ih, add_triple_instances]

theorem foldl_add_triple_heap (cs : List String) (st : ToolState) (u : String) :
    (cs.foldl (fun s c => add_triple s u RDF_TYPE c) st).heap = st.heap := by
  induction cs generalizing st with
  | nil => rfl
  | cons c cs ih => rw [List.foldl_cons, ih, add_triple_heap]

theorem foldl_add_triple_count (cs : List String) (st : ToolState) (u : String) :
    (cs.foldl (fun s c => add_triple s u RDF_TYPE c) st).session_instance_count
      = st.session_instance_count := by
  induction cs generalizing st with
  | nil => rfl
  | cons c cs ih => rw [List.foldl_cons, ih, add_triple_count]

theorem foldl_add_triple_events (cs : List String) (st : ToolState) (u : String)
    (h : RDF_TYPE ∈ st.object_properties) :
    (cs.foldl (fun s c => add_triple s u RDF_TYPE c) st).events
      = st.events ++ cs.map (fun c => Event.addTriple u RDF_TYPE c) := by
  induction cs generalizing st with
  | nil => simp
  | cons c cs ih =>
    rw [List.foldl_cons, ih _ (by rw [add_triple_object_properties]; exact h),
      add_triple_events st u RDF_TYPE c h, List.map_cons]
    simp

/-- Claim C1: a construction call whose `uri` kwarg is already a key of the
session's identity cache returns the cached heap reference unchanged — for
any entity class and any class-list argument — and leaves the heap, the
cache, the graph, and the session counter untouched. -/
theorem claim_C1 (st : ToolState) (clsName u : String)
    (classesArg : Option (List String)) (r : Nat)
    (hne : u ≠ "") (hc : assocLookup st.instances u = some r) :
    (unique_call st clsName (some u) classesArg).1 = r
    ∧ (unique_call st clsName (some u) classesArg).2.heap = st.heap
    ∧ (unique_call st clsName (some u) classesArg).2.instances = st.instances
    ∧ (unique_call st clsName (some u) classesArg).2.graph = st.graph
    ∧ (unique_call st clsName (some u) classesArg).2.session_instance_count
        = st.session_instance_count := by
  unfold unique_call
  dsimp only
  rw [if_neg hne]
  by_cases hv : st.url_validator u
  · rw [if_pos hv, hc]
    exact ⟨rfl, rfl, rfl, rfl, rfl⟩
  · rw [if_neg hv]
    show (match assocLookup (logError st _).instances u with
      | none => _ | some cached => (cached, logError st _)).1 = r ∧ _
    rw [show (logError st ("Invalid URI: " ++ u)).instances = st.instances from rfl, hc]
    exact ⟨rfl, rfl, rfl, rfl, rfl⟩

/-- Witness for C1 at a concrete session state holding a cached object. -/
theorem claim_C1_witness :
    ("http://example.com/rdf/testdata#obj1" : String) ≠ ""
    ∧ assocLookup ({ initToolState with
        instances := [("http://example.com/rdf/testdata#obj1", 0)],
        heap := [⟨"RdfsResource", "http://example.com/rdf/testdata#obj1",
          [RDFS_RESOURCE]⟩] } : ToolState).instances
        "http://example.com/rdf/testdata#obj1" = some 0
    ∧ (unique_call { initToolState with
        instances := [("http://example.com/rdf/testdata#obj1", 0)],
        heap := [⟨"RdfsResource", "http://example.com/rdf/testdata#obj1",
          [RDFS_RESOURCE]⟩] } "Person"
        (some "http://example.com/rdf/testdata#obj1")
        (some [IES_BASE ++ "Person"])).1 = 0 :=
  ⟨by decide, by decide,
    (claim_C1 _ "Person" "http://example.com/rdf/testdata#obj1"
      (some [IES_BASE ++ "Person"]) 0 (by decide) (by decide)).1⟩

/-! ## The double URI generation on omitted `uri` (claim C9) -/

theorem list_set_append_length {α : Type} (l : List α) (b d : α) :
    (l ++ [b]).set l.length d = l ++ [d] := by
  induction l with
  | nil => rfl
  | cons x xs ih => simp [List.set, ih]

theorem generate_twice_ne (st : ToolState) :
    (generate_data_uri st none).1 ≠ (generate_data_uri (generate_data_uri st none).2 none).1 := by
  intro h
  have h2 := congrArg parseCounter h
  rw [parse_generate_data_uri, parse_generate_data_uri, generate_data_uri_count] at h2
  omega

theorem unique_call_empty_eq_none (st : ToolState) (clsName : String)
    (classesArg : Option (List String)) :
    unique_call st clsName (some "") classesArg = unique_call st clsName none classesArg := by
  unfold unique_call rdfs_resource_init
  simp

/-- Claim C9: when the `uri` kwarg is omitted (or empty), the metaclass
generates one fresh URI as the cache key while `__init__` generates a second
one for the object itself; the returned object's `uri` attribute is the
second URI, the object is registered in `tool.instances` under both distinct
keys, and the session instance counter advances by two. -/
theorem claim_C9 (st : ToolState) (clsName : String) (classesArg : Option (List String))
    (uriArg : Option String) (hu : uriArg = none ∨ uriArg = some "")
    (hfresh : assocLookup st.instances (generate_data_uri st none).1 = none) :
    (unique_call st clsName uriArg classesArg).1 = st.heap.length
    ∧ (unique_call st clsName uriArg classesArg).2.heap
        = st.heap ++ [⟨clsName,
            (generate_data_uri (generate_data_uri st none).2 none).1,
            effective_classes classesArg⟩]
    ∧ (generate_data_uri st none).1 ≠ (generate_data_uri (generate_data_uri st none).2 none).1
    ∧ assocLookup (unique_call st clsName uriArg classesArg).2.instances
        (generate_data_uri st none).1 = some st.heap.length
    ∧ assocLookup (unique_call st clsName uriArg classesArg).2.instances
        (generate_data_uri (generate_data_uri st none).2 none).1 = some st.heap.length
    ∧ (unique_call st clsName uriArg classesArg).2.session_instance_count
        = st.session_instance_count + 2 := by
  have hne12 := generate_twice_ne st
  have main :
      (unique_call st clsName none classesArg).1 = st.heap.length
      ∧ (unique_call st clsName none classesArg).2.heap
          = st.heap ++ [⟨clsName,
              (generate_data_uri (generate_data_uri st none).2 none).1,
              effective_classes classesArg⟩]
      ∧ (generate_data_uri st none).1 ≠ (generate_data_uri (generate_data_uri st none).2 none).1
      ∧ assocLookup (unique_call st clsName none classesArg).2.instances
          (generate_data_uri st none).1 = some st.heap.length
      ∧ assocLookup (unique_call st clsName none classesArg).2.instances
          (generate_data_uri (generate_data_uri st none).2 none).1 = some st.heap.length
      ∧ (unique_call st clsName none classesArg).2.session_instance_count
          = st.session_instance_count + 2 := by
    unfold unique_call
    dsimp only
    by_cases hv : (generate_data_uri st none).2.url_validator (generate_data_uri st none).1 = true
    · rw [if_pos hv]
      rw [show ((generate_data_uri st none).2).instances = st.instances from rfl, hfresh]
      dsimp only [rdfs_resource_init, registerInstance, heapSet, generate_data_uri,
        logError] at hne12 ⊢
      rw [foldl_add_triple_heap, foldl_add_triple_instances, foldl_add_triple_count]
      refine ⟨rfl, ?_, hne12, ?_, ?_, ?_⟩
      · rw [list_set_append_length]
      · rw [assocLookup_dictSet_self]
      · rw [assocLookup_dictSet_of_ne _ _ _ _ hne12, assocLookup_dictSet_self]
      · dsimp only
    · rw [if_neg hv]
      rw [show (logError (generate_data_uri st none).2
          ("Invalid URI: " ++ (generate_data_uri st none).1)).instances = st.instances from rfl,
        hfresh]
      dsimp only [rdfs_resource_init, registerInstance, heapSet, generate_data_uri,
        logError] at hne12 ⊢
      rw [foldl_add_triple_heap, foldl_add_triple_instances, foldl_add_triple_count]
      refine ⟨rfl, ?_, hne12, ?_, ?_, ?_⟩
      · rw [list_set_append_length]
      · rw [assocLookup_dictSet_self]
      · rw [assocLookup_dictSet_of_ne _ _ _ _ hne12, assocLookup_dictSet_self]
      · dsimp only
  rcases hu with hu | hu <;> subst hu
  · exact main
  · rw [unique_call_empty_eq_none]
    exact main

/-- Witness for C9: a concrete construction with the `uri` kwarg omitted. -/
theorem claim_C9_witness :
    ((none : Option String) = none ∨ (none : Option String) = some "")
    ∧ assocLookup initToolState.instances (generate_data_uri initToolState none).1 = none
    ∧ (unique_call initToolState "Person" none none).1 = initToolState.heap.length :=
  ⟨Or.inl rfl, by decide,
    (claim_C9 initToolState "Person" none none (Or.inl rfl) (by decide)).1⟩

/-! ## Ordering of cache registration versus triple emission (claim C4) -/

/-- Counterexample to C4 as stated: in a concrete construction of a
not-yet-cached URI the first emitted event is the `add_triple` call asserting
the `rdf:type` triple, and both cache registrations come strictly later, so
registration does NOT happen "no later than" the type-triple assertion. -/
theorem claim_C4_counterexample :
    ((unique_call initToolState "RdfsResource"
        (some "http://example.com/rdf/testdata#obj1") none).2.events
      = [Event.addTriple "http://example.com/rdf/testdata#obj1" RDF_TYPE RDFS_RESOURCE,
         Event.register "http://example.com/rdf/testdata#obj1" 0,
         Event.register "http://example.com/rdf/testdata#obj1" 0])
    ∧ ¬ (List.findIdx Event.isRegister
          (unique_call initToolState "RdfsResource"
            (some "http://example.com/rdf/testdata#obj1") none).2.events
        ≤ List.findIdx Event.isAddTriple
          (unique_call initToolState "RdfsResource"
            (some "http://example.com/rdf/testdata#obj1") none).2.events) := by
  decide

/-- Claim C4, amended: in every construction of a not-yet-cached (supplied,
valid) URI, the `rdf:type` triples are asserted FIRST and the two cache
registrations (one from `__init__`, one from the metaclass) follow them —
the opposite order to the one the claim requires, so re-entrant construction
of the same URI would not find the partially-initialized object in the
cache. -/
theorem claim_C4 (st : ToolState) (clsName u : String) (classesArg : Option (List String))
    (hne : u ≠ "") (hval : st.url_validator u = true)
    (hfresh : assocLookup st.instances u = none)
    (hprop : RDF_TYPE ∈ st.object_properties) :
    (unique_call st clsName (some u) classesArg).2.events
      = st.events
        ++ (effective_classes classesArg).map (fun c => Event.addTriple u RDF_TYPE c)
        ++ [Event.register u st.heap.length, Event.register u st.heap.length] := by
  unfold unique_call
  dsimp only
  rw [if_neg hne, if_pos hval, hfresh]
  dsimp only [rdfs_resource_init, registerInstance, heapSet]
  rw [if_neg hne]
  dsimp only
  rw [foldl_add_triple_events]
  · simp [List.append_assoc]
  · exact hprop

/-- Witness for the amended C4 at a concrete uncached URI. -/
theorem claim_C4_witness :
    (("http://example.com/rdf/testdata#obj2" : String) ≠ ""
      ∧ initToolState.url_validator "http://example.com/rdf/testdata#obj2" = true
      ∧ assocLookup initToolState.instances "http://example.com/rdf/testdata#obj2" = none
      ∧ RDF_TYPE ∈ initToolState.object_properties)
    ∧ (unique_call initToolState "Person" (some "http://example.com/rdf/testdata#obj2")
        (some [IES_BASE ++ "Person"])).2.events
      = initToolState.events
        ++ (effective_classes (some [IES_BASE ++ "Person"])).map
            (fun c => Event.addTriple "http://example.com/rdf/testdata#obj2" RDF_TYPE c)
        ++ [Event.register "http://example.com/rdf/testdata#obj2" initToolState.heap.length,
            Event.register "http://example.com/rdf/testdata#obj2" initToolState.heap.length] :=
  ⟨⟨by decide, by decide, by decide, by decide⟩,
    claim_C4 initToolState "Person" "http://example.com/rdf/testdata#obj2"
      (some [IES_BASE ++ "Person"]) (by decide) (by decide) (by decide) (by decide)⟩

/-! ## Subclass closure properties (claim C8) -/

theorem mem_reachStep_of_mem (edges : List (String × String)) (s : List String)
    (u : String) (h : u ∈ s) : u ∈ reachStep edges s :=
  List.mem_append_left _ h

theorem mem_iterStep_of_mem (edges : List (String × String)) (n : Nat) :
    ∀ (s : List String) (u : String), u ∈ s → u ∈ iterStep edges n s := by
  induction n with
  | zero => intro s u h; exact h
  | succ n ih => intro s u h; exact ih (reachStep edges s) u (mem_reachStep_of_mem edges s u h)

theorem mem_reachStep_of_edge (edges : List (String × String)) (s : List String)
    (a b : String) (he : (a, b) ∈ edges) (hb : b ∈ s) : a ∈ reachStep edges s := by
  refine List.mem_append_right _ ?_
  exact List.mem_map.mpr ⟨(a, b), List.mem_filter.mpr ⟨he, by simpa using hb⟩, rfl⟩

theorem self_mem_subClassOf_star (edges : List (String × String)) (x : String) :
    x ∈ subClassOf_star edges x :=
  mem_iterStep_of_mem edges (edges.length + 1) [x] x (List.mem_singleton.mpr rfl)

/-- Claim C8: the computed subclass closure of any class URI contains the URI
itself, and for a chain `a subClassOf b`, `b subClassOf c` in the loaded
graph, the closure of `c` contains `a`, `b` and `c`. -/
theorem claim_C8 :
    (∀ (edges : List (String × String)) (x : String), x ∈ subClassOf_star edges x)
    ∧ (∀ (edges : List (String × String)) (a b c : String),
        (a, b) ∈ edges → (b, c) ∈ edges →
        a ∈ subClassOf_star edges c ∧ b ∈ subClassOf_star edges c
          ∧ c ∈ subClassOf_star edges c) := by
  refine ⟨self_mem_subClassOf_star, ?_⟩
  intro edges a b c h1 h2
  have hlen : 1 ≤ edges.length := by
    have : edges ≠ [] := List.ne_nil_of_mem h1
    have := List.length_pos.mpr this
    omega
  obtain ⟨k, hk⟩ : ∃ k, edges.length + 1 = k + 2 := ⟨edges.length - 1, by omega⟩
  have hb1 : b ∈ reachStep edges [c] :=
    mem_reachStep_of_edge edges [c] b c h2 (List.mem_singleton.mpr rfl)
  have ha2 : a ∈ reachStep edges (reachStep edges [c]) :=
    mem_reachStep_of_edge edges _ a b h1 hb1
  refine ⟨?_, ?_, self_mem_subClassOf_star edges c⟩
  · show a ∈ iterStep edges (edges.length + 1) [c]
    rw [hk]
    exact mem_iterStep_of_mem edges k _ a ha2
  · show b ∈ iterStep edges (edges.length + 1) [c]
    rw [hk]
    exact mem_iterStep_of_mem edges k _ b
      (mem_reachStep_of_mem edges _ b hb1)

/-- Witness for C8 on a concrete two-edge chain. -/
theorem claim_C8_witness :
    (("a", "b") ∈ [("a", "b"), ("b", "c")] ∧ ("b", "c") ∈ [("a", "b"), ("b", "c")])
    ∧ "a" ∈ subClassOf_star [("a", "b"), ("b", "c")] "c"
    ∧ "b" ∈ subClassOf_star [("a", "b"), ("b", "c")] "c"
    ∧ "c" ∈ subClassOf_star [("a", "b"), ("b", "c")] "c" :=
  ⟨⟨by decide, by decide⟩,
    claim_C8.2 [("a", "b"), ("b", "c")] "a" "b" "c" (by decide) (by decide)⟩

/-! ## The reference resolver's missing base-type default (claim C5) -/

/-- Claim C5 is a code bug: for an uncached string reference with no
`base_type` supplied (the default, and what `add_related_object` does), the
warning f-string dereferences `base_type.__name__` before the `None` default
is applied, so the call raises `AttributeError` instead of returning an
`RdfsResource` placeholder.  This theorem evaluates the embedding at the
failing input. -/
theorem claim_C5 :
    validate_referenced_object initToolState (Ref.str "http://unseen#x") none
        (some "add_relation")
      = Except.error "AttributeError: NoneType object has no attribute __name__" := rfl

/-! ## The resolver fallback raises (claim C2) -/

/-- Claim C2 is a code bug: `_determine_base_class` on an empty list, or on a
list of URIs covered by no hierarchy entry, reaches the fallback
`return self.base_classes[0]["python_class"], 0`, which indexes the URI-keyed
level-0 dict with the literal string `"python_class"` and therefore raises
`KeyError` instead of returning the root type.  `IESTool.instantiate`
propagates the exception. -/
theorem claim_C2 :
    determine_base_class tinyHierarchy [] = Except.error "KeyError: python_class"
    ∧ determine_base_class tinyHierarchy ["http://nonexistentclass#X"]
        = Except.error "KeyError: python_class"
    ∧ (instantiate initToolState (some ["http://nonexistentclass#X"]) none none none).1
        = Except.error "KeyError: python_class" :=
  ⟨rfl, rfl, rfl⟩

/-! ## Class registration and hierarchy rebuild (claim C7) -/

/-- Claim C7 (`add_classes` modelled from the spec): before registration the
URI of class `Widget` resolves to no entry (the fallback raises, per C2);
after merging `Widget subClassOf Device` into the ontology and rebuilding the
hierarchy map, `Widget` resolves to the `Device` implementation type at its
level — not to the root type. -/
theorem claim_C7 :
    determine_base_class (all_python_subclasses deviceOntology [] deviceClassTree 0) [WIDGET]
        = Except.error "KeyError: python_class"
    ∧ determine_base_class
        (all_python_subclasses
          (add_classes deviceOntology [(WIDGET, [IES_BASE ++ "Device"])])
          [] deviceClassTree 0)
        [WIDGET]
        = Except.ok (PyVal.clsVal "Device", 5) :=
  ⟨rfl, rfl⟩

/-! ## In-place sorting of the caller's class list (claim C10) -/

theorem pySortInsert_perm (x : String) (l : List String) :
    List.Perm (pySortInsert x l) (x :: l) := by
  induction l with
  | nil => exact List.Perm.refl _
  | cons y ys ih =>
    unfold pySortInsert
    by_cases h : py_str_lt x y = true
    · rw [if_pos h]
    · rw [if_neg h]
      exact (List.Perm.cons y ih).trans (List.Perm.swap x y ys)

theorem py_sort_perm (l : List String) : List.Perm (py_sort l) l := by
  induction l with
  | nil => exact List.Perm.refl _
  | cons x xs ih =>
    exact (pySortInsert_perm x (py_sort xs)).trans (List.Perm.cons x ih)

theorem pySortInsert_sorted (x : String) (l : List String)
    (h : List.Pairwise (fun a b : String => a.data ≤ b.data) l) :
    List.Pairwise (fun a b : String => a.data ≤ b.data) (pySortInsert x l) := by
  induction l with
  | nil => simp [pySortInsert]
  | cons y ys ih =>
    rw [List.pairwise_cons] at h
    obtain ⟨hy, hys⟩ := h
    unfold pySortInsert
    by_cases hxy : py_str_lt x y = true
    · rw [if_pos hxy]
      have hxylt : x.data < y.data := by simpa [py_str_lt] using hxy
      refine List.pairwise_cons.mpr ⟨?_, List.pairwise_cons.mpr ⟨hy, hys⟩⟩
      intro z hz
      rcases List.mem_cons.mp hz with rfl | hz
      · exact le_of_lt hxylt
      · exact le_trans (le_of_lt hxylt) (hy z hz)
    · rw [if_neg hxy]
      have hxyle : y.data ≤ x.data := by
        have hn : ¬ x.data < y.data := by simpa [py_str_lt] using hxy
        exact not_lt.mp hn
      refine List.pairwise_cons.mpr ⟨?_, ih hys⟩
      intro z hz
      have hz2 := (pySortInsert_perm x ys).mem_iff.mp hz
      rcases List.mem_cons.mp hz2 with rfl | hz2
      · exact hxyle
      · exact hy z hz2

theorem py_sort_sorted (l : List String) :
    List.Pairwise (fun a b : String => a.data ≤ b.data) (py_sort l) := by
  induction l with
  | nil => simp [py_sort]
  | cons x xs ih => exact pySortInsert_sorted x (py_sort xs) ih

/-- Counterexample to C10 as stated: a non-empty list of unknown class URIs
makes `_determine_base_class` raise before `classes.sort()` runs, so the
caller's list is left unsorted. -/
theorem claim_C10_counterexample :
    (instantiate initToolState (some ["http://x#b", "http://x#a"]) none none none).1
        = Except.error "KeyError: python_class"
    ∧ (instantiate initToolState (some ["http://x#b", "http://x#a"]) none none none).2
        = some ["http://x#b", "http://x#a"]
    ∧ ["http://x#b", "http://x#a"] ≠ py_sort ["http://x#b", "http://x#a"] :=
  ⟨rfl, rfl, by decide⟩

/-- Claim C10, amended: for every non-empty `classes` list whose base-class
resolution succeeds, `instantiate` sorts the caller's list in place into
ascending string order (a sorted permutation), and the resolution the call
used was computed from the list in its ORIGINAL order, before sorting: the
constructed object uses the class resolved from the unsorted list, while the
constructor receives the sorted list. -/
theorem claim_C10 (st : ToolState) (cs : List String) (u : String)
    (ictxArg : Option String) (bc : String) (lvl : Nat) (hne : cs ≠ [])
    (hres : determine_base_class st.base_classes cs = Except.ok (PyVal.clsVal bc, lvl)) :
    (instantiate st (some cs) (some u) ictxArg none).2 = some (py_sort cs)
    ∧ List.Perm (py_sort cs) cs
    ∧ List.Pairwise (fun a b : String => a.data ≤ b.data) (py_sort cs)
    ∧ (instantiate st (some cs) (some u) ictxArg none).1
        = Except.ok (unique_call st bc (some u) (some (py_sort cs))) := by
  obtain ⟨c, cs2, rfl⟩ := List.exists_cons_of_ne_nil hne
  refine ⟨?_, py_sort_perm _, py_sort_sorted _, ?_⟩
  · unfold instantiate
    dsimp only
    rw [hres]
  · unfold instantiate
    dsimp only
    rw [hres]
    dsimp only [resolve_instance_uri]

/-- Witness for the amended C10 at a concrete resolvable class list. -/
theorem claim_C10_witness :
    ([IES_BASE ++ "ExchangedItem", RDFS_RESOURCE] ≠ ([] : List String)
      ∧ determine_base_class initToolState.base_classes
          [IES_BASE ++ "ExchangedItem", RDFS_RESOURCE]
          = Except.ok (PyVal.clsVal "ExchangedItem", 1))
    ∧ (instantiate initToolState (some [IES_BASE ++ "ExchangedItem", RDFS_RESOURCE])
        (some "http://example.com/rdf/testdata#obj3") none none).2
      = some (py_sort [IES_BASE ++ "ExchangedItem", RDFS_RESOURCE]) :=
  ⟨⟨by decide, rfl⟩,
    (claim_C10 initToolState [IES_BASE ++ "ExchangedItem", RDFS_RESOURCE]
      "http://example.com/rdf/testdata#obj3" none "ExchangedItem" 1
      (by decide) rfl).1⟩

/-! ## Deepest-first resolution on a chain (claim C3) -/

theorem string_append_left_cancel (a b c : String) (h : a ++ b = a ++ c) : b = c := by
  have hd := congrArg String.data h
  rw [String.data_append, String.data_append] at hd
  exact String.ext (List.append_cancel_left hd)

theorem ies_base_append_ne_rdfs_resource (n : String) : IES_BASE ++ n ≠ RDFS_RESOURCE := by
  intro h
  have hd := congrArg String.data h
  rw [String.data_append] at hd
  have h8 := congrArg (List.take 8) hd
  rw [List.take_append_of_le_length (by decide)] at h8
  exact absurd h8 (by decide)

theorem iterStep_succ (edges : List (String × String)) (n : Nat) (s : List String) :
    iterStep edges (n + 1) s = iterStep edges n (reachStep edges s) := rfl

theorem closure_chain_uB (nA nB : String)
    (hAB : IES_BASE ++ nA ≠ IES_BASE ++ nB) :
    subClassOf_star (chainOntology nA nB) (IES_BASE ++ nB) = [IES_BASE ++ nB] := by
  have hRB : RDFS_RESOURCE ≠ IES_BASE ++ nB :=
    fun h => ies_base_append_ne_rdfs_resource nB h.symm
  have hstep : reachStep (chainOntology nA nB) [IES_BASE ++ nB] = [IES_BASE ++ nB] := by
    simp [reachStep, chainOntology, List.filter, hAB, hRB]
  have hiter : ∀ k, iterStep (chainOntology nA nB) k [IES_BASE ++ nB] = [IES_BASE ++ nB] := by
    intro k
    induction k with
    | zero => rfl
    | succ k ih => rw [iterStep_succ, hstep, ih]
  exact hiter _

theorem chain_builder_eq (nA nB : String)
    (hA : containsSub "Rdfs".data nA.data = false)
    (hB : containsSub "Rdfs".data nB.data = false) :
    all_python_subclasses (chainOntology nA nB) [] (chainTree nA nB) 0
      = [(0, [(RDFS_RESOURCE,
              ⟨"RdfsResource", subClassOf_star (chainOntology nA nB) RDFS_RESOURCE⟩)]),
         (1, [(IES_BASE ++ nA,
              ⟨nA, subClassOf_star (chainOntology nA nB) (IES_BASE ++ nA)⟩)]),
         (2, [(IES_BASE ++ nB,
              ⟨nB, subClassOf_star (chainOntology nA nB) (IES_BASE ++ nB)⟩)])] := by
  have hroot : canonical_uri "RdfsResource" = RDFS_RESOURCE := by decide
  have hcA : canonical_uri nA = IES_BASE ++ nA := by
    unfold canonical_uri
    rw [hA]
    simp
  have hcB : canonical_uri nB = IES_BASE ++ nB := by
    unfold canonical_uri
    rw [hB]
    simp
  simp [chainTree, all_python_subclasses, all_python_subclasses_list, hroot, hcA, hcB,
    assocLookup, hierSet, dictSet]

/-- Claim C3: the resolver searches the hierarchy map deepest level first, so
on a chain root -> A -> B of implementation types whose canonical ontology
classes form a subclass chain, resolving the canonical class of B yields B at
level 2, and resolving the canonical class of A yields A at level 1 — not B,
even though A's class is covered at shallower levels by closure. -/
theorem claim_C3 (nA nB : String)
    (hA : containsSub "Rdfs".data nA.data = false)
    (hB : containsSub "Rdfs".data nB.data = false)
    (hAB : nA ≠ nB) :
    determine_base_class (all_python_subclasses (chainOntology nA nB) [] (chainTree nA nB) 0)
        [IES_BASE ++ nB] = Except.ok (PyVal.clsVal nB, 2)
    ∧ determine_base_class (all_python_subclasses (chainOntology nA nB) [] (chainTree nA nB) 0)
        [IES_BASE ++ nA] = Except.ok (PyVal.clsVal nA, 1) := by
  have hUAB : IES_BASE ++ nA ≠ IES_BASE ++ nB :=
    fun h => hAB (string_append_left_cancel _ _ _ h)
  rw [chain_builder_eq nA nB hA hB]
  have hBB : (IES_BASE ++ nB ∈ subClassOf_star (chainOntology nA nB) (IES_BASE ++ nB)) :=
    self_mem_subClassOf_star _ _
  have hAA : (IES_BASE ++ nA ∈ subClassOf_star (chainOntology nA nB) (IES_BASE ++ nA)) :=
    self_mem_subClassOf_star _ _
  have hAnotB : ¬ (IES_BASE ++ nA ∈ subClassOf_star (chainOntology nA nB) (IES_BASE ++ nB)) := by
    rw [closure_chain_uB nA nB hUAB]
    simp [hUAB]
  constructor
  · simp [determine_base_class, scanLevels, scanLevel, assocLookup, hBB]
  · simp [determine_base_class, scanLevels, scanLevel, assocLookup, hAA, hAnotB]

/-- Witness for C3 on the concrete chain `RdfsResource -> Element -> Entity`. -/
theorem claim_C3_witness :
    (containsSub "Rdfs".data "Element".data = false
      ∧ containsSub "Rdfs".data "Entity".data = false
      ∧ ("Element" : String) ≠ "Entity")
    ∧ determine_base_class
        (all_python_subclasses (chainOntology "Element" "Entity") []
          (chainTree "Element" "Entity") 0)
        [IES_BASE ++ "Entity"] = Except.ok (PyVal.clsVal "Entity", 2) :=
  ⟨⟨by decide, by decide, by decide⟩,
    (claim_C3 "Element" "Entity" (by decide) (by decide) (by decide)).1⟩

end IES
